import Mathlib

/-!
# docker-registry-client: the `registry` package

A shallow embedding of `registry/registry.go`, `registry/manifest.go` and
`registry/tags.go`, followed by theorems about the endpoint wrappers, the
transport stack built by `WrapTransport`, the construction path
`newFromTransport` and the pagination loop of `Registry.Tags`.

Conventions of the embedding

* A Go `error` is `Option Error` (`none` is `nil`).
* A Go `[]string` is `Option (List String)` (`none` is the nil slice).
* Every operation that talks to the outside world takes the world as an
  explicit state `σ` together with an `Env σ` that answers client calls, and
  returns the new state, the list of externally visible events it produced
  (in order) and its Go results.
* `*http.Client` and `*Registry` receivers and the `logf` callback are taken
  to be non-nil.
* Go strings are modelled by Lean strings; all byte-level operations used
  here act on the ASCII characters `/` and `%` only.
-/

namespace registry

/-! ## Library types -/

/-- Modelled from the spec: the pagination sentinel `ErrNoMorePages` is a
package variable declared outside the given sources; the spec calls it the
"no more pages" signal, and `tags.go` compares against it by identity.  It is
the first constructor of the Go error values; every other error value is
identified by its text. -/
inductive Error where
  | ErrNoMorePages
  | other (msg : String)
  deriving DecidableEq, Repr

/-- The Go interface type `error`; `none` is `nil`. -/
abbrev error := Option Error

/-- A Go `[]string`; `none` is the nil slice. -/
abbrev Slice := Option (List String)

/-- The elements of a slice (none for the nil slice). -/
def Slice.elems (s : Slice) : List String := s.getD []

/-- Go's `append(s, xs...)`: with nothing to add the first operand is returned
as it is (a nil slice stays nil); otherwise a slice holding the elements of
`s` followed by those of `xs`. -/
def append (s xs : Slice) : Slice :=
  match xs.elems with
  | [] => s
  | y :: ys => some (s.elems ++ y :: ys)

/-- The `http.Header` map: canonical key to list of values. -/
abbrev Header := List (String × List String)

/-- `http.Header.Get` for a key that is already in canonical form: the first
value stored under the key, or the empty string. -/
def Header.Get (h : Header) (key : String) : String :=
  match h.lookup key with
  | some (v :: _) => v
  | _ => ""

/-- `http.Header.Set`: replace whatever is stored under the key. -/
def Header.Set (h : Header) (key value : String) : Header :=
  (key, [value]) :: h.filter (fun kv => kv.1 != key)

/-- An outgoing `*http.Request`. -/
structure Request where
  Method : String
  URL : String
  Header : Header
  Body : Option (List Nat)
  deriving DecidableEq, Repr

/-- An `*http.Response`: status, headers, and what reading the whole body
gives (`ioutil.ReadAll(resp.Body)`). -/
structure Response where
  StatusCode : Nat
  Header : Header
  Body : List Nat
  ReadErr : error
  deriving DecidableEq, Repr

/-! ## `fmt.Sprintf` and `strings.TrimSuffix` -/

/-- The tail `%!(EXTRA string=a, string=b)` that `fmt` adds for operands the
format did not use. -/
def extraOperands : List String → List Char
  | [] => []
  | a :: rest =>
    "%!(EXTRA ".data ++ ("string=" ++ a).data ++
      (rest.map (fun x => (", string=" ++ x).data)).flatten ++ [')']

/-- The `fmt` formatting loop on string operands.  The directives modelled are
the ones this package uses: `%s` (and `%v`), which print the operand verbatim,
and `%%`.  A missing operand prints as `%!s(MISSING)`, a lone `%` at the end as
`%!(NOVERB)`, and any other character after `%` is printed in the bad-verb form
`%!c(string=...)` that `fmt` uses for verbs that do not apply to strings
(flags, width, precision and the string verbs `x`, `X`, `q`, `T` do not occur
in the package and are not modelled separately). -/
def doPrintf : List Char → List String → List Char
  | [], args => extraOperands args
  | ['%'], _ => "%!(NOVERB)".data
  | '%' :: '%' :: rest, args => '%' :: doPrintf rest args
  | '%' :: c :: rest, [] => "%!".data ++ c :: "(MISSING)".data ++ doPrintf rest []
  | '%' :: c :: rest, a :: args =>
    if c = 's' ∨ c = 'v' then a.data ++ doPrintf rest args
    else "%!".data ++ c :: "(string=".data ++ a.data ++ ')' :: doPrintf rest args
  | c :: rest, args => c :: doPrintf rest args

/-- `fmt.Sprintf` on string operands. -/
def Sprintf (format : String) (args : List String) : String :=
  String.mk (doPrintf format.data args)

/-- `strings.HasSuffix`. -/
def HasSuffix (s suffix : String) : Bool :=
  decide (s.data.length ≥ suffix.data.length) &&
    s.data.drop (s.data.length - suffix.data.length) == suffix.data

/-- `strings.TrimSuffix`: `s` without the given trailing suffix, or `s` itself
when it does not end with the suffix. -/
def TrimSuffix (s suffix : String) : String :=
  if HasSuffix s suffix then
    String.mk (s.data.take (s.data.length - suffix.data.length))
  else s

/-! ## Transports, client, registry -/

/-- Modelled from the spec: the struct types `TokenTransport`, `BasicTransport`
and `ErrorTransport` (the TokenTransport, BasicTransport and ErrorMapper
layers of the spec) are declared outside the given sources; their fields are
the ones the composite literals of `WrapTransport` assign.  Together with the
underlying network transports (`http.DefaultTransport`, an `&http.Transport`
with its TLS setting, or any other one a caller supplies) they make up the
`http.RoundTripper` values that occur. -/
inductive RoundTripper where
  | DefaultTransport
  | Transport (InsecureSkipVerify : Bool)
  | custom (id : Nat)
  | TokenTransport (Transport : RoundTripper) (Username Password : String)
  | BasicTransport (Transport : RoundTripper) (URL Username Password : String)
  | ErrorTransport (Transport : RoundTripper)
  deriving DecidableEq, Repr

/-- An `*http.Client`; `tag` stands for the fields other than `Transport`
(zero in the client that `newFromTransport` builds). -/
structure Client where
  Transport : RoundTripper
  tag : Nat := 0
  deriving DecidableEq, Repr

/-- The logging callbacks: the package's two and any caller-supplied one. -/
inductive LogfCallback where
  | Quiet
  | Log
  | custom (id : Nat)
  deriving DecidableEq, Repr

/-- The `Registry` struct. -/
structure Registry where
  url : String
  client : Client
  logf : LogfCallback
  deriving DecidableEq, Repr

/-- An `OptionFunc` mutates the registry it is given. -/
abbrev OptionFunc := Registry → Registry

def SetLogf (logf : LogfCallback) : OptionFunc :=
  fun r => { r with logf := logf }

def SetHttpClient (client : Client) : OptionFunc :=
  fun r => { r with client := client }

def WrapTransport (transport : RoundTripper) (url username password : String) :
    RoundTripper :=
  let tokenTransport := RoundTripper.TokenTransport transport username password
  let basicAuthTransport :=
    RoundTripper.BasicTransport tokenTransport url username password
  let errorTransport := RoundTripper.ErrorTransport basicAuthTransport
  errorTransport

def Registry.generateUrl (r : Registry) (pathTemplate : String)
    (args : List String) : String :=
  let pathSuffix := Sprintf pathTemplate args
  let url := Sprintf "%s%s" [r.url, pathSuffix]
  url

/-! ## The outside world -/

/-- The `tagsResponse` struct of `tags.go`. -/
structure tagsResponse where
  Tags : Slice
  deriving DecidableEq, Repr

/-- What one call `r.getPaginatedJSON(url, &response)` leaves behind: the value
of `response` after the call, and the two results. -/
structure PageResult where
  response : tagsResponse
  next : String
  err : error
  deriving DecidableEq, Repr

/-- A `*schema1.SignedManifest` filled by `UnmarshalJSON`. -/
structure SignedManifest where
  content : List Nat
  deriving DecidableEq, Repr

/-- A `*schema2.DeserializedManifest` filled by `UnmarshalJSON`. -/
structure DeserializedManifest where
  content : List Nat
  deriving DecidableEq, Repr

/-- A `distribution.Manifest` argument, given by what its `Payload()` method
returns: media type, payload bytes, error. -/
structure Manifest where
  Payload : String × List Nat × error
  deriving DecidableEq, Repr

/-- Everything the package calls but does not define, for a world with states
`σ`.  `Get`, `Head` and `Do` are the methods of `*http.Client`;
`getPaginatedJSON` is the `Registry` method that fetches and decodes one page
and is not among the given sources (it receives the current value of
`response` and returns the value it leaves there); the remaining fields are
pure library functions: `url.Parse` as used by `http.NewRequest` (only its
error), `digest.Parse`, and the two `UnmarshalJSON` methods. -/
structure Env (σ : Type) where
  Get : σ → Client → String → σ × Option Response × error
  Head : σ → Client → String → σ × Option Response × error
  Do : σ → Client → Request → σ × Option Response × error
  getPaginatedJSON : σ → Registry → String → tagsResponse → σ × PageResult
  parseURL : String → error
  digestParse : String → String × error
  unmarshalSchema1 : List Nat → SignedManifest × error
  unmarshalSchema2 : List Nat → DeserializedManifest × error

/-- The externally visible steps of an operation, in the order they happen. -/
inductive Event where
  | logf (cb : LogfCallback) (format : String) (args : List String)
  | Get (c : Client) (url : String)
  | Head (c : Client) (url : String)
  | Do (c : Client) (req : Request)
  | getPaginatedJSON (r : Registry) (url : String)
  | Close
  deriving DecidableEq, Repr

/-- How a call that may dereference a response ends: it returns, or it
dereferences a nil `*http.Response` and panics. -/
inductive Outcome (α : Type) where
  | returned (a : α)
  | nilDeref
  deriving DecidableEq, Repr

/-- The `resp.Body.Close()` that runs when the response is non-nil. -/
def closeIf (resp : Option Response) : List Event :=
  if resp.isSome then [Event.Close] else []

/-- `http.NewRequest`: fails exactly when the URL does not parse (the methods
used here are all valid). -/
def NewRequest {σ : Type} (env : Env σ) (method url : String)
    (body : Option (List Nat)) : Except Error Request :=
  match env.parseURL url with
  | some e => Except.error e
  | none => Except.ok { Method := method, URL := url, Header := [], Body := body }

/-- The constant `schema1.MediaTypeManifest`. -/
def schema1MediaTypeManifest : String :=
  "application/vnd.docker.distribution.manifest.v1+json"

/-- The constant `schema2.MediaTypeManifest`. -/
def schema2MediaTypeManifest : String :=
  "application/vnd.docker.distribution.manifest.v2+json"

section Operations

variable {σ : Type}

/-! ## registry.go: Ping and construction -/

def Registry.Ping (env : Env σ) (s : σ) (r : Registry) : σ × List Event × error :=
  let url := r.generateUrl "/v2/" []
  let log := Event.logf r.logf "registry.ping url=%s" [url]
  match env.Get s r.client url with
  | (s1, resp, err) => (s1, [log, Event.Get r.client url] ++ closeIf resp, err)

def newFromTransport (env : Env σ) (s : σ) (registryURL username password : String)
    (transport : RoundTripper) (options : List OptionFunc) :
    σ × List Event × Option Registry × error :=
  let url := TrimSuffix registryURL "/"
  let transport := WrapTransport transport url username password
  let registry : Registry :=
    { url := url, client := { Transport := transport }, logf := LogfCallback.Log }
  let registry := options.foldl (fun r optionFunc => optionFunc r) registry
  match registry.Ping env s with
  | (s1, tr, some err) => (s1, tr, none, some err)
  | (s1, tr, none) => (s1, tr, some registry, none)

def New (env : Env σ) (s : σ) (registryURL username password : String)
    (options : List OptionFunc) : σ × List Event × Option Registry × error :=
  let transport := RoundTripper.DefaultTransport
  newFromTransport env s registryURL username password transport options

def NewInsecure (env : Env σ) (s : σ) (registryURL username password : String)
    (options : List OptionFunc) : σ × List Event × Option Registry × error :=
  let transport := RoundTripper.Transport true
  newFromTransport env s registryURL username password transport options

/-! ## manifest.go -/

def Registry.Manifest (env : Env σ) (s : σ) (r : Registry)
    (repository reference : String) :
    σ × List Event × Outcome (Option SignedManifest × error) :=
  let url := r.generateUrl "/v2/%s/manifests/%s" [repository, reference]
  let log := Event.logf r.logf
    "registry.manifest.get url=%s repository=%s reference=%s" [url, repository, reference]
  match NewRequest env "GET" url none with
  | Except.error err => (s, [log], Outcome.returned (none, some err))
  | Except.ok req =>
    let req := { req with Header := req.Header.Set "Accept" schema1MediaTypeManifest }
    match env.Do s r.client req with
    | (s1, _, some err) => (s1, [log, Event.Do r.client req], Outcome.returned (none, some err))
    | (s1, none, none) => (s1, [log, Event.Do r.client req], Outcome.nilDeref)
    | (s1, some resp, none) =>
      let tr := [log, Event.Do r.client req, Event.Close]
      match resp.ReadErr with
      | some err => (s1, tr, Outcome.returned (none, some err))
      | none =>
        match env.unmarshalSchema1 resp.Body with
        | (_, some err) => (s1, tr, Outcome.returned (none, some err))
        | (signedManifest, none) => (s1, tr, Outcome.returned (some signedManifest, none))

def Registry.ManifestV2 (env : Env σ) (s : σ) (r : Registry)
    (repository reference : String) :
    σ × List Event × Outcome (Option DeserializedManifest × error) :=
  let url := r.generateUrl "/v2/%s/manifests/%s" [repository, reference]
  let log := Event.logf r.logf
    "registry.manifest.get url=%s repository=%s reference=%s" [url, repository, reference]
  match NewRequest env "GET" url none with
  | Except.error err => (s, [log], Outcome.returned (none, some err))
  | Except.ok req =>
    let req := { req with Header := req.Header.Set "Accept" schema2MediaTypeManifest }
    match env.Do s r.client req with
    | (s1, _, some err) => (s1, [log, Event.Do r.client req], Outcome.returned (none, some err))
    | (s1, none, none) => (s1, [log, Event.Do r.client req], Outcome.nilDeref)
    | (s1, some resp, none) =>
      let tr := [log, Event.Do r.client req, Event.Close]
      match resp.ReadErr with
      | some err => (s1, tr, Outcome.returned (none, some err))
      | none =>
        match env.unmarshalSchema2 resp.Body with
        | (_, some err) => (s1, tr, Outcome.returned (none, some err))
        | (deserialized, none) => (s1, tr, Outcome.returned (some deserialized, none))

def Registry.ManifestDigest (env : Env σ) (s : σ) (r : Registry)
    (repository reference : String) : σ × List Event × Outcome (String × error) :=
  let url := r.generateUrl "/v2/%s/manifests/%s" [repository, reference]
  let log := Event.logf r.logf
    "registry.manifest.head url=%s repository=%s reference=%s" [url, repository, reference]
  match env.Head s r.client url with
  | (s1, resp, some err) =>
    (s1, [log, Event.Head r.client url] ++ closeIf resp, Outcome.returned ("", some err))
  | (s1, none, none) => (s1, [log, Event.Head r.client url], Outcome.nilDeref)
  | (s1, some resp, none) =>
    (s1, [log, Event.Head r.client url, Event.Close],
      Outcome.returned (env.digestParse (resp.Header.Get "Docker-Content-Digest")))

def Registry.DeleteManifest (env : Env σ) (s : σ) (r : Registry)
    (repository digest : String) : σ × List Event × error :=
  let url := r.generateUrl "/v2/%s/manifests/%s" [repository, digest]
  let log := Event.logf r.logf
    "registry.manifest.delete url=%s repository=%s reference=%s" [url, repository, digest]
  match NewRequest env "DELETE" url none with
  | Except.error err => (s, [log], some err)
  | Except.ok req =>
    match env.Do s r.client req with
    | (s1, resp, some err) => (s1, [log, Event.Do r.client req] ++ closeIf resp, some err)
    | (s1, resp, none) => (s1, [log, Event.Do r.client req] ++ closeIf resp, none)

def Registry.PutManifest (env : Env σ) (s : σ) (r : Registry)
    (repository reference : String) (manifest : registry.Manifest) :
    σ × List Event × error :=
  let url := r.generateUrl "/v2/%s/manifests/%s" [repository, reference]
  let log := Event.logf r.logf
    "registry.manifest.put url=%s repository=%s reference=%s" [url, repository, reference]
  match manifest.Payload with
  | (_, _, some err) => (s, [log], some err)
  | (mediaType, payload, none) =>
    let buffer := some payload
    match NewRequest env "PUT" url buffer with
    | Except.error err => (s, [log], some err)
    | Except.ok req =>
      let req := { req with Header := req.Header.Set "Content-Type" mediaType }
      match env.Do s r.client req with
      | (s1, resp, err) => (s1, [log, Event.Do r.client req] ++ closeIf resp, err)

/-! ## tags.go -/

/-- The `for` loop of `Tags`, run for at most `fuel` iterations.  The loop
variables are `url`, `response` and `tags`.  The result component is `none`
when the loop is still running after `fuel` iterations, and otherwise the
pair that `Tags` returns. -/
def Registry.TagsLoop (env : Env σ) (r : Registry) (repository : String) :
    Nat → σ → String → tagsResponse → Slice → σ × List Event × Option (Slice × error)
  | 0, s, _, _, _ => (s, [], none)
  | fuel + 1, s, url, response, tags =>
    let log := Event.logf r.logf "registry.tags url=%s repository=%s" [url, repository]
    let call := Event.getPaginatedJSON r url
    match env.getPaginatedJSON s r url response with
    | (s1, page) =>
      match page.err with
      | some Error.ErrNoMorePages =>
        (s1, [log, call], some (append tags page.response.Tags, none))
      | none =>
        match Registry.TagsLoop env r repository fuel s1 page.next page.response
            (append tags page.response.Tags) with
        | (s2, tr, res) => (s2, log :: call :: tr, res)
      | some err => (s1, [log, call], some (none, some err))

def Registry.Tags (env : Env σ) (fuel : Nat) (s : σ) (r : Registry)
    (repository : String) : σ × List Event × Option (Slice × error) :=
  let url := r.generateUrl "/v2/%s/tags/list" [repository]
  let response : tagsResponse := { Tags := none }
  Registry.TagsLoop env r repository fuel s url response none

end Operations

/-! ## Vocabulary for statements about `Tags` -/

section Vocabulary

variable {σ : Type}

/-- The world answers the successive page fetches of one `Tags` call with the
given pages: the first fetch is for `url` with `response` as the value to
decode into, and each later fetch is for the `next` URL of the page before
it, with that page's decoded value still in `response`. -/
def Serves (env : Env σ) (r : Registry) :
    σ → String → tagsResponse → List PageResult → Prop
  | _, _, _, [] => True
  | s, url, response, p :: ps =>
    (env.getPaginatedJSON s r url response).2 = p ∧
      Serves env r (env.getPaginatedJSON s r url response).1 p.next p.response ps

/-- The world after it has answered the given pages. -/
def afterPages (env : Env σ) (r : Registry) :
    σ → String → tagsResponse → List PageResult → σ
  | s, _, _, [] => s
  | s, url, response, p :: ps =>
    afterPages env r (env.getPaginatedJSON s r url response).1 p.next p.response ps

/-- The value of the loop variable `url` after the given pages. -/
def urlAfter : String → List PageResult → String
  | url, [] => url
  | _, p :: ps => urlAfter p.next ps

/-- The value of the loop variable `response` after the given pages. -/
def responseAfter : tagsResponse → List PageResult → tagsResponse
  | response, [] => response
  | _, p :: ps => responseAfter p.response ps

/-- The value of the loop variable `tags` after the given pages were merged. -/
def tagsAfter : Slice → List PageResult → Slice
  | tags, [] => tags
  | tags, p :: ps => tagsAfter (append tags p.response.Tags) ps

/-- The events of fetching the given pages starting at `url`: for each page
one log call and then the fetch, both carrying the URL of that page. -/
def pageEvents (r : Registry) (repository : String) :
    String → List PageResult → List Event
  | _, [] => []
  | url, p :: ps =>
    Event.logf r.logf "registry.tags url=%s repository=%s" [url, repository] ::
      Event.getPaginatedJSON r url :: pageEvents r repository p.next ps

/-- The URLs of the page fetches in a trace, in order. -/
def fetchedURLs : List Event → List String
  | [] => []
  | Event.getPaginatedJSON _ url :: tr => url :: fetchedURLs tr
  | _ :: tr => fetchedURLs tr

/-- The network calls: the client methods and the page fetch. -/
def isNetworkCall : Event → Bool
  | Event.Get _ _ => true
  | Event.Head _ _ => true
  | Event.Do _ _ => true
  | Event.getPaginatedJSON _ _ => true
  | _ => false

/-- The URL a network call goes to. -/
def requestedURLs : List Event → List String
  | [] => []
  | Event.Get _ url :: tr => url :: requestedURLs tr
  | Event.Head _ url :: tr => url :: requestedURLs tr
  | Event.Do _ req :: tr => req.URL :: requestedURLs tr
  | Event.getPaginatedJSON _ url :: tr => url :: requestedURLs tr
  | _ :: tr => requestedURLs tr

/-- The client a network call goes through; for a page fetch, the client of the
registry the fetch is invoked on. -/
def clientsUsed : List Event → List Client
  | [] => []
  | Event.Get c _ :: tr => c :: clientsUsed tr
  | Event.Head c _ :: tr => c :: clientsUsed tr
  | Event.Do c _ :: tr => c :: clientsUsed tr
  | Event.getPaginatedJSON r _ :: tr => r.client :: clientsUsed tr
  | _ :: tr => clientsUsed tr

/-- The callbacks of the log calls in a trace, in order. -/
def callbacksUsed : List Event → List LogfCallback
  | [] => []
  | Event.logf cb _ _ :: tr => cb :: callbacksUsed tr
  | _ :: tr => callbacksUsed tr

/-- Scan a trace and check that every network call has a call of the callback
`cb` before it that is later than the previous network call.  The flag says
whether such a log call has been seen since the last network call. -/
def loggedBeforeEachCall (cb : LogfCallback) : Bool → List Event → Bool
  | _, [] => true
  | logged, Event.logf cb1 _ _ :: tr => loggedBeforeEachCall cb (logged || cb1 == cb) tr
  | logged, Event.Close :: tr => loggedBeforeEachCall cb logged tr
  | logged, _ :: tr => logged && loggedBeforeEachCall cb false tr

/-- The contract of `(*http.Client).Head`: a call that returns a nil error
returns a non-nil response. -/
def HeadContract (env : Env σ) : Prop :=
  ∀ (s : σ) (c : Client) (url : String),
    (env.Head s c url).2.2 = none → (env.Head s c url).2.1 ≠ none

end Vocabulary

/-! ## A concrete world

A registry at `https://r.example` whose state counts the calls it has
answered.  Repository `app` has three pages of tags, `loop` has two pages
that link to each other, and the second page of `flaky` fails to decode. -/

def demoPage (url : String) (response : tagsResponse) : PageResult :=
  if url = "https://r.example/v2/app/tags/list" then
    { response := { Tags := some ["1.0", "1.1"] },
      next := "https://r.example/v2/app/tags/list?last=1.1", err := none }
  else if url = "https://r.example/v2/app/tags/list?last=1.1" then
    { response := { Tags := some ["2.0"] },
      next := "https://r.example/v2/app/tags/list?last=2.0", err := none }
  else if url = "https://r.example/v2/app/tags/list?last=2.0" then
    { response := { Tags := some ["latest"] }, next := "",
      err := some Error.ErrNoMorePages }
  else if url = "https://r.example/v2/loop/tags/list" then
    { response := { Tags := some ["a"] },
      next := "https://r.example/v2/loop/tags/list?n=1", err := none }
  else if url = "https://r.example/v2/loop/tags/list?n=1" then
    { response := { Tags := some ["b"] },
      next := "https://r.example/v2/loop/tags/list", err := none }
  else if url = "https://r.example/v2/flaky/tags/list" then
    { response := { Tags := some ["x", "y"] },
      next := "https://r.example/v2/flaky/tags/list?last=y", err := none }
  else
    { response := response, next := "", err := some (Error.other "unexpected EOF") }

def demoResponse (status : Nat) (header : Header) (body : List Nat) : Response :=
  { StatusCode := status, Header := header, Body := body, ReadErr := none }

def demoRefused : Error := Error.other "dial tcp: connection refused"

def demoRedirect : Error := Error.other "stopped after 10 redirects"

def demoGet (s : Nat) (url : String) : Nat × Option Response × error :=
  if url = "https://r.example/v2/" then (s + 1, some (demoResponse 200 [] [123, 125]), none)
  else (s + 1, none, some demoRefused)

def demoHead (s : Nat) (url : String) : Nat × Option Response × error :=
  if url = "https://r.example/v2/app/manifests/latest" then
    (s + 1, some (demoResponse 200 [("Docker-Content-Digest", ["sha256:0a1b"])] []), none)
  else if url = "https://r.example/v2/app/manifests/moved" then
    (s + 1, some (demoResponse 302 [("Docker-Content-Digest", ["sha256:ffff"])] []),
      some demoRedirect)
  else if url = "https://r.example/v2/app/manifests/bare" then
    (s + 1, some (demoResponse 200 [] []), none)
  else (s + 1, none, some demoRefused)

def demoDo (s : Nat) (req : Request) : Nat × Option Response × error :=
  if req.URL = "https://r.example/v2/app/manifests/latest" then
    (s + 1, some (demoResponse 200 [] [123, 125]), none)
  else if req.URL = "https://r.example/v2/app/manifests/moved" then
    (s + 1, some (demoResponse 302 [] []), some demoRedirect)
  else (s + 1, none, some demoRefused)

def demoEnv : Env Nat where
  Get := fun s _ url => demoGet s url
  Head := fun s _ url => demoHead s url
  Do := fun s _ req => demoDo s req
  getPaginatedJSON := fun s _ url response => (s + 1, demoPage url response)
  parseURL := fun url =>
    if url.data.any (fun c => c.toNat < 32 || c.toNat == 127) then
      some (Error.other "net/url: invalid control character in URL")
    else none
  digestParse := fun d =>
    (d, if "sha256:".data.isPrefixOf d.data then none
        else some (Error.other "invalid checksum digest format"))
  unmarshalSchema1 := fun body =>
    ({ content := body },
      if body = [] then some (Error.other "unexpected end of JSON input") else none)
  unmarshalSchema2 := fun body =>
    ({ content := body },
      if body = [] then some (Error.other "unexpected end of JSON input") else none)

def demoClient : Client := { Transport := RoundTripper.custom 7, tag := 1 }

def demoRegistry : Registry :=
  { url := "https://r.example", client := demoClient, logf := LogfCallback.Quiet }

def demoAppPages : List PageResult :=
  [{ response := { Tags := some ["1.0", "1.1"] },
     next := "https://r.example/v2/app/tags/list?last=1.1", err := none },
   { response := { Tags := some ["2.0"] },
     next := "https://r.example/v2/app/tags/list?last=2.0", err := none }]

def demoAppLast : PageResult :=
  { response := { Tags := some ["latest"] }, next := "", err := some Error.ErrNoMorePages }

def demoLoopPages : List PageResult :=
  [{ response := { Tags := some ["a"] },
     next := "https://r.example/v2/loop/tags/list?n=1", err := none },
   { response := { Tags := some ["b"] },
     next := "https://r.example/v2/loop/tags/list", err := none },
   { response := { Tags := some ["a"] },
     next := "https://r.example/v2/loop/tags/list?n=1", err := none }]

def demoFlakyPages : List PageResult :=
  [{ response := { Tags := some ["x", "y"] },
     next := "https://r.example/v2/flaky/tags/list?last=y", err := none }]

def demoFlakyFailed : PageResult :=
  { response := { Tags := some ["x", "y"] }, next := "",
    err := some (Error.other "unexpected EOF") }

def demoWrappedClient : Client :=
  { Transport :=
      WrapTransport RoundTripper.DefaultTransport "https://r.example" "user" "secret" }

def demoManifest : Manifest := { Payload := ("application/json", [123, 125], none) }

/-! ## Formatting and slices -/

theorem Sprintf_join (a b : String) : Sprintf "%s%s" [a, b] = a ++ b := by
  apply String.ext
  simp [Sprintf, doPrintf, extraOperands]

theorem generateUrl_eq (r : Registry) (pathTemplate : String) (args : List String) :
    r.generateUrl pathTemplate args = r.url ++ Sprintf pathTemplate args := by
  simp [Registry.generateUrl, Sprintf_join]

theorem Sprintf_ping : Sprintf "/v2/" [] = "/v2/" := by
  apply String.ext
  simp [Sprintf, doPrintf, extraOperands]

theorem Sprintf_manifests (repository reference : String) :
    Sprintf "/v2/%s/manifests/%s" [repository, reference] =
      "/v2/" ++ repository ++ "/manifests/" ++ reference := by
  apply String.ext
  simp [Sprintf, doPrintf, extraOperands]

theorem Sprintf_tags (repository : String) :
    Sprintf "/v2/%s/tags/list" [repository] = "/v2/" ++ repository ++ "/tags/list" := by
  apply String.ext
  simp [Sprintf, doPrintf, extraOperands]

theorem elems_append (s xs : Slice) : (append s xs).elems = s.elems ++ xs.elems := by
  unfold append
  cases h : xs.elems with
  | nil => simp
  | cons y ys => simp [Slice.elems]

/-! ## The pagination loop -/

section Pagination

variable {σ : Type}

theorem TagsLoop_pages (env : Env σ) (r : Registry) (repository : String)
    (ps : List PageResult) : ∀ (s : σ) (url : String) (response : tagsResponse)
    (tags : Slice) (fuel : Nat), Serves env r s url response ps →
    (∀ p ∈ ps, p.err = none) →
    Registry.TagsLoop env r repository (ps.length + fuel) s url response tags =
      ((Registry.TagsLoop env r repository fuel (afterPages env r s url response ps)
          (urlAfter url ps) (responseAfter response ps) (tagsAfter tags ps)).1,
        pageEvents r repository url ps ++
          (Registry.TagsLoop env r repository fuel (afterPages env r s url response ps)
            (urlAfter url ps) (responseAfter response ps) (tagsAfter tags ps)).2.1,
        (Registry.TagsLoop env r repository fuel (afterPages env r s url response ps)
          (urlAfter url ps) (responseAfter response ps) (tagsAfter tags ps)).2.2) := by
  induction ps with
  | nil =>
    intro s url response tags fuel _ _
    simp [afterPages, urlAfter, responseAfter, tagsAfter, pageEvents]
  | cons p ps ih =>
    intro s url response tags fuel hs hn
    obtain ⟨h1, h2⟩ := hs
    have hp : p.err = none := hn p (List.mem_cons_self _ _)
    have hrest : ∀ q ∈ ps, q.err = none := fun q hq => hn q (List.mem_cons_of_mem _ hq)
    have hlen : (p :: ps).length + fuel = (ps.length + fuel) + 1 := by simp; omega
    rw [hlen, Registry.TagsLoop]
    have hpair : env.getPaginatedJSON s r url response =
        ((env.getPaginatedJSON s r url response).1, p) := by rw [← h1]
    rw [hpair]
    simp only [hp]
    rw [ih _ _ _ _ fuel h2 hrest]
    simp [afterPages, urlAfter, responseAfter, tagsAfter, pageEvents]

theorem Serves_append (env : Env σ) (r : Registry) (ps : List PageResult) (q : PageResult) :
    ∀ (s : σ) (url : String) (response : tagsResponse),
    Serves env r s url response (ps ++ [q]) →
    Serves env r s url response ps ∧
      (env.getPaginatedJSON (afterPages env r s url response ps) r (urlAfter url ps)
        (responseAfter response ps)).2 = q := by
  induction ps with
  | nil => intro s url response h; simpa [Serves, afterPages, urlAfter, responseAfter] using h
  | cons p ps ih =>
    intro s url response h
    obtain ⟨h1, h2⟩ := h
    obtain ⟨h3, h4⟩ := ih _ _ _ h2
    exact ⟨⟨h1, h3⟩, by simpa [afterPages, urlAfter, responseAfter] using h4⟩

theorem elems_tagsAfter (ps : List PageResult) : ∀ tags : Slice,
    (tagsAfter tags ps).elems = tags.elems ++ ps.flatMap (fun p => p.response.Tags.elems) := by
  induction ps with
  | nil => intro tags; simp [tagsAfter]
  | cons p ps ih => intro tags; simp [tagsAfter, ih, elems_append]

theorem fetchedURLs_append (a b : List Event) :
    fetchedURLs (a ++ b) = fetchedURLs a ++ fetchedURLs b := by
  induction a with
  | nil => rfl
  | cons e a ih => cases e <;> simp [fetchedURLs, ih]

theorem fetchedURLs_pageEvents (r : Registry) (repository : String) (ps : List PageResult) :
    ∀ url : String, fetchedURLs (pageEvents r repository url ps) =
      (url :: ps.map (fun p => p.next)).take ps.length := by
  induction ps with
  | nil => intro url; simp [pageEvents, fetchedURLs]
  | cons p ps ih => intro url; simp [pageEvents, fetchedURLs, ih]

theorem urlAfter_eq (ps : List PageResult) : ∀ url : String,
    (url :: ps.map (fun p => p.next)).take ps.length ++ [urlAfter url ps] =
      url :: ps.map (fun p => p.next) := by
  induction ps with
  | nil => intro url; simp [urlAfter]
  | cons p ps ih => intro url; simpa [urlAfter] using ih p.next

theorem TagsLoop_step (env : Env σ) (r : Registry) (repository : String) (fuel : Nat)
    (s : σ) (url : String) (response : tagsResponse) (tags : Slice) (e : Error)
    (he : (env.getPaginatedJSON s r url response).2.err = some e) :
    Registry.TagsLoop env r repository (fuel + 1) s url response tags =
      ((env.getPaginatedJSON s r url response).1,
        [Event.logf r.logf "registry.tags url=%s repository=%s" [url, repository],
          Event.getPaginatedJSON r url],
        some (if e = Error.ErrNoMorePages then
            (append tags (env.getPaginatedJSON s r url response).2.response.Tags, none)
          else (none, some e))) := by
  rw [Registry.TagsLoop]
  cases e with
  | ErrNoMorePages => simp [he]
  | other msg => simp [he]

theorem TagsLoop_running (env : Env σ) (r : Registry) (repository : String)
    (inv : String → Prop)
    (hinv : ∀ (s : σ) (url : String) (response : tagsResponse), inv url →
      (env.getPaginatedJSON s r url response).2.err = none ∧
        inv (env.getPaginatedJSON s r url response).2.next) :
    ∀ (fuel : Nat) (s : σ) (url : String) (response : tagsResponse) (tags : Slice),
      inv url → (Registry.TagsLoop env r repository fuel s url response tags).2.2 = none := by
  intro fuel
  induction fuel with
  | zero => intro s url response tags _; rfl
  | succ n ih =>
    intro s url response tags hu
    obtain ⟨h1, h2⟩ := hinv s url response hu
    rw [Registry.TagsLoop]
    simp only [h1]
    exact ih _ _ _ _ h2

theorem TagsLoop_error_origin (env : Env σ) (r : Registry) (repository : String)
    (t : Slice) (e : Error) :
    ∀ (fuel : Nat) (s : σ) (url : String) (response : tagsResponse) (tags : Slice),
      (Registry.TagsLoop env r repository fuel s url response tags).2.2 = some (t, some e) →
      e ≠ Error.ErrNoMorePages ∧ t = none ∧
        ∃ (s1 : σ) (url1 : String) (response1 : tagsResponse),
          (env.getPaginatedJSON s1 r url1 response1).2.err = some e := by
  intro fuel
  induction fuel with
  | zero => intro s url response tags h; simp [Registry.TagsLoop] at h
  | succ n ih =>
    intro s url response tags h
    rw [Registry.TagsLoop] at h
    cases herr : (env.getPaginatedJSON s r url response).2.err with
    | none =>
      simp only [herr] at h
      exact ih _ _ _ _ h
    | some e1 =>
      cases e1 with
      | ErrNoMorePages => simp [herr] at h
      | other msg =>
        simp only [herr] at h
        simp at h
        obtain ⟨h1, h2⟩ := h
        subst h2
        exact ⟨by simp, h1.symm, s, url, response, herr⟩


/-! ## Claims about `Registry.Tags` -/

/-- C1 (pagination exhaustion).  Whenever the world serves the pages
`P0, ..., Pn` to one `Tags` call, the fetches of `P0 .. P(n-1)` returning a nil
error and the fetch of `Pn` returning `ErrNoMorePages`, then `Tags` (given room
for more than `n` iterations) returns a nil error and a tag list whose elements
are the tags of `P0`, `P1`, ..., `Pn` concatenated in that order, the last page
included; it calls `getPaginatedJSON` exactly `n + 1` times, first with base
URL + `/v2/<repository>/tags/list` and then with the next URL each previous
call returned. -/
theorem Tags_pagination_exhaustion (env : Env σ) (s : σ) (r : Registry)
    (repository : String) (ps : List PageResult) (last : PageResult) (fuel : Nat)
    (hserve : Serves env r s (r.url ++ "/v2/" ++ repository ++ "/tags/list")
      { Tags := none } (ps ++ [last]))
    (hnil : ∀ p ∈ ps, p.err = none)
    (hlast : last.err = some Error.ErrNoMorePages)
    (hfuel : ps.length < fuel) :
    ∃ tags : Slice,
      (r.Tags env fuel s repository).2.2 = some (tags, none) ∧
      tags.elems = (ps ++ [last]).flatMap (fun p => p.response.Tags.elems) ∧
      fetchedURLs (r.Tags env fuel s repository).2.1 =
        (r.url ++ "/v2/" ++ repository ++ "/tags/list") :: ps.map (fun p => p.next) ∧
      (fetchedURLs (r.Tags env fuel s repository).2.1).length = ps.length + 1 := by
  obtain ⟨hps, hq⟩ := Serves_append env r ps last _ _ _ hserve
  obtain ⟨k, rfl⟩ : ∃ k, fuel = ps.length + (k + 1) := ⟨fuel - ps.length - 1, by omega⟩
  have herr : (env.getPaginatedJSON
      (afterPages env r s (r.url ++ "/v2/" ++ repository ++ "/tags/list") { Tags := none } ps) r
      (urlAfter (r.url ++ "/v2/" ++ repository ++ "/tags/list") ps)
      (responseAfter { Tags := none } ps)).2.err = some Error.ErrNoMorePages := by
    rw [hq, hlast]
  have hrun := TagsLoop_pages env r repository ps s _ _ none (k + 1) hps hnil
  rw [TagsLoop_step env r repository k _ _ _ _ _ herr] at hrun
  simp only [Registry.Tags, generateUrl_eq, Sprintf_tags, ← String.append_assoc]
  rw [hrun]
  refine ⟨_, rfl, ?_, ?_, ?_⟩
  · have h0 : Slice.elems none = [] := rfl
    simp [elems_append, elems_tagsAfter, hq, h0]
  · simp only [fetchedURLs_append, fetchedURLs_pageEvents, fetchedURLs]
    exact urlAfter_eq ps _
  · simp only [fetchedURLs_append, fetchedURLs_pageEvents, fetchedURLs]
    rw [urlAfter_eq ps _]
    simp


/-- Witness for C1: repository `app` of the concrete world, three pages. -/
theorem Tags_pagination_exhaustion_witness :
    Serves demoEnv demoRegistry 0 (demoRegistry.url ++ "/v2/" ++ "app" ++ "/tags/list")
      { Tags := none } (demoAppPages ++ [demoAppLast]) ∧
    ∃ tags : Slice,
      (demoRegistry.Tags demoEnv 5 0 "app").2.2 = some (tags, none) ∧
      tags.elems = ["1.0", "1.1", "2.0", "latest"] ∧
      fetchedURLs (demoRegistry.Tags demoEnv 5 0 "app").2.1 =
        ["https://r.example/v2/app/tags/list",
         "https://r.example/v2/app/tags/list?last=1.1",
         "https://r.example/v2/app/tags/list?last=2.0"] ∧
      (fetchedURLs (demoRegistry.Tags demoEnv 5 0 "app").2.1).length = 3 :=
  have hs : Serves demoEnv demoRegistry 0 (demoRegistry.url ++ "/v2/" ++ "app" ++ "/tags/list")
      { Tags := none } (demoAppPages ++ [demoAppLast]) := ⟨rfl, rfl, rfl, trivial⟩
  ⟨hs, Tags_pagination_exhaustion demoEnv 0 demoRegistry "app" demoAppPages demoAppLast 5
    hs (by decide) rfl (by decide)⟩


/-- C4 (partial results are discarded).  Whenever, after any number of pages
fetched with a nil error, a call to `getPaginatedJSON` returns an error `e`
that is neither nil nor `ErrNoMorePages`, `Tags` makes no further fetch and
returns the nil tag list together with exactly `e`, whatever tags the earlier
pages held. -/
theorem Tags_discards_partial_results (env : Env σ) (s : σ) (r : Registry)
    (repository : String) (ps : List PageResult) (failed : PageResult) (e : Error)
    (fuel : Nat)
    (hserve : Serves env r s (r.url ++ "/v2/" ++ repository ++ "/tags/list")
      { Tags := none } (ps ++ [failed]))
    (hnil : ∀ p ∈ ps, p.err = none)
    (hfailed : failed.err = some e)
    (hne : e ≠ Error.ErrNoMorePages)
    (hfuel : ps.length < fuel) :
    (r.Tags env fuel s repository).2.2 = some (none, some e) ∧
      fetchedURLs (r.Tags env fuel s repository).2.1 =
        (r.url ++ "/v2/" ++ repository ++ "/tags/list") :: ps.map (fun p => p.next) := by
  obtain ⟨hps, hq⟩ := Serves_append env r ps failed _ _ _ hserve
  obtain ⟨k, rfl⟩ : ∃ k, fuel = ps.length + (k + 1) := ⟨fuel - ps.length - 1, by omega⟩
  have herr : (env.getPaginatedJSON
      (afterPages env r s (r.url ++ "/v2/" ++ repository ++ "/tags/list") { Tags := none } ps) r
      (urlAfter (r.url ++ "/v2/" ++ repository ++ "/tags/list") ps)
      (responseAfter { Tags := none } ps)).2.err = some e := by
    rw [hq, hfailed]
  have hrun := TagsLoop_pages env r repository ps s _ _ none (k + 1) hps hnil
  rw [TagsLoop_step env r repository k _ _ _ _ _ herr] at hrun
  simp only [Registry.Tags, generateUrl_eq, Sprintf_tags, ← String.append_assoc]
  rw [hrun]
  refine ⟨by simp [hne], ?_⟩
  simp only [fetchedURLs_append, fetchedURLs_pageEvents, fetchedURLs]
  exact urlAfter_eq ps _



/-- Witness for C4: repository `flaky` of the concrete world, whose second page
fails to decode after the first one delivered two tags. -/
theorem Tags_discards_partial_results_witness :
    Serves demoEnv demoRegistry 0 (demoRegistry.url ++ "/v2/" ++ "flaky" ++ "/tags/list")
      { Tags := none } (demoFlakyPages ++ [demoFlakyFailed]) ∧
    (demoRegistry.Tags demoEnv 4 0 "flaky").2.2 =
      some (none, some (Error.other "unexpected EOF")) ∧
    fetchedURLs (demoRegistry.Tags demoEnv 4 0 "flaky").2.1 =
      ["https://r.example/v2/flaky/tags/list",
       "https://r.example/v2/flaky/tags/list?last=y"] :=
  have hs : Serves demoEnv demoRegistry 0
      (demoRegistry.url ++ "/v2/" ++ "flaky" ++ "/tags/list") { Tags := none }
      (demoFlakyPages ++ [demoFlakyFailed]) := ⟨rfl, rfl, trivial⟩
  ⟨hs, Tags_discards_partial_results demoEnv 0 demoRegistry "flaky" demoFlakyPages
    demoFlakyFailed (Error.other "unexpected EOF") 4 hs (by decide) rfl (by decide)
    (by decide)⟩

/-- C3, counterexample.  In the concrete world the two pages of repository
`loop` link to each other, so the second page's next link is the URL of the
first.  `Tags` does not detect this: whatever number of iterations it is
given it is still looping (it neither returns nor fails), and within its
first three fetches it has fetched the first URL twice. -/
theorem Tags_cycle_not_detected :
    Serves demoEnv demoRegistry 0 "https://r.example/v2/loop/tags/list" { Tags := none }
      demoLoopPages ∧
    (∀ fuel : Nat, (demoRegistry.Tags demoEnv fuel 0 "loop").2.2 = none) ∧
    fetchedURLs (demoRegistry.Tags demoEnv 3 0 "loop").2.1 =
      ["https://r.example/v2/loop/tags/list",
       "https://r.example/v2/loop/tags/list?n=1",
       "https://r.example/v2/loop/tags/list"] := by
  refine ⟨⟨rfl, rfl, rfl, trivial⟩, ?_, rfl⟩
  intro fuel
  apply TagsLoop_running demoEnv demoRegistry "loop"
    (fun url => url = "https://r.example/v2/loop/tags/list" ∨
      url = "https://r.example/v2/loop/tags/list?n=1")
  · intro s url response hu
    rcases hu with rfl | rfl
    · exact ⟨rfl, Or.inr rfl⟩
    · exact ⟨rfl, Or.inl rfl⟩
  · exact Or.inl rfl


/-- C3, as amended.  `Tags` has no cycle protection.  For every sequence of
pages whose fetches all return a nil error, including sequences in which a
next link equals a URL fetched earlier in the call, `Tags` fetches every page
in order, following each next link whether or not its URL was fetched before,
and is still looping after those fetches.  Whenever `Tags` does return a
non-nil error, that error is not `ErrNoMorePages` and is one that a
`getPaginatedJSON` call returned; `Tags` raises no error of its own. -/
theorem Tags_follows_every_next_link (env : Env σ) (s : σ) (r : Registry)
    (repository : String) (ps : List PageResult)
    (hserve : Serves env r s (r.url ++ "/v2/" ++ repository ++ "/tags/list")
      { Tags := none } ps)
    (hnil : ∀ p ∈ ps, p.err = none) :
    (r.Tags env ps.length s repository).2.2 = none ∧
    fetchedURLs (r.Tags env ps.length s repository).2.1 =
      ((r.url ++ "/v2/" ++ repository ++ "/tags/list") :: ps.map (fun p => p.next)).take
        ps.length ∧
    ∀ (fuel : Nat) (tags : Slice) (e : Error),
      (r.Tags env fuel s repository).2.2 = some (tags, some e) →
      e ≠ Error.ErrNoMorePages ∧
        ∃ (s1 : σ) (url1 : String) (response1 : tagsResponse),
          (env.getPaginatedJSON s1 r url1 response1).2.err = some e := by
  have hrun := TagsLoop_pages env r repository ps s _ _ none 0 hserve hnil
  simp only [Registry.Tags, generateUrl_eq, Sprintf_tags, ← String.append_assoc]
  rw [Nat.add_zero] at hrun
  rw [hrun]
  refine ⟨rfl, ?_, ?_⟩
  · simp [Registry.TagsLoop, fetchedURLs_pageEvents]
  · intro fuel tags e h
    obtain ⟨h1, _, h3⟩ := TagsLoop_error_origin env r repository tags e fuel _ _ _ _ h
    exact ⟨h1, h3⟩


/-- Witness for the amended C3: the looping repository, and the error of the
failing repository traced back to the page fetch that returned it. -/
theorem Tags_follows_every_next_link_witness :
    ((demoRegistry.Tags demoEnv 3 0 "loop").2.2 = none ∧
      fetchedURLs (demoRegistry.Tags demoEnv 3 0 "loop").2.1 =
        ["https://r.example/v2/loop/tags/list",
         "https://r.example/v2/loop/tags/list?n=1",
         "https://r.example/v2/loop/tags/list"]) ∧
    (Error.other "unexpected EOF" ≠ Error.ErrNoMorePages ∧
      ∃ (s1 : Nat) (url1 : String) (response1 : tagsResponse),
        (demoEnv.getPaginatedJSON s1 demoRegistry url1 response1).2.err =
          some (Error.other "unexpected EOF")) :=
  ⟨⟨(Tags_follows_every_next_link demoEnv 0 demoRegistry "loop" demoLoopPages
      ⟨rfl, rfl, rfl, trivial⟩ (by decide)).1,
    (Tags_follows_every_next_link demoEnv 0 demoRegistry "loop" demoLoopPages
      ⟨rfl, rfl, rfl, trivial⟩ (by decide)).2.1⟩,
   (Tags_follows_every_next_link demoEnv 0 demoRegistry "flaky" demoFlakyPages
      ⟨rfl, trivial⟩ (by decide)).2.2 4 none (Error.other "unexpected EOF") rfl⟩

end Pagination

/-! ## The endpoint wrappers and construction: auxiliary facts -/

section Endpoints

variable {σ : Type}

theorem Ping_eq (env : Env σ) (s : σ) (r : Registry) :
    r.Ping env s =
      ((env.Get s r.client (r.url ++ "/v2/")).1,
        [Event.logf r.logf "registry.ping url=%s" [r.url ++ "/v2/"],
          Event.Get r.client (r.url ++ "/v2/")] ++
          closeIf (env.Get s r.client (r.url ++ "/v2/")).2.1,
        (env.Get s r.client (r.url ++ "/v2/")).2.2) := by
  simp [Registry.Ping, generateUrl_eq, Sprintf_ping]

theorem manifestUrl_eq (r : Registry) (repository reference : String) :
    r.generateUrl "/v2/%s/manifests/%s" [repository, reference] =
      r.url ++ "/v2/" ++ repository ++ "/manifests/" ++ reference := by
  simp [generateUrl_eq, Sprintf_manifests, String.append_assoc]

theorem filter_closeIf (resp : Option Response) :
    (closeIf resp).filter isNetworkCall = [] := by
  cases resp <;> simp [closeIf, isNetworkCall]

theorem newFromTransport_eq (env : Env σ) (s : σ) (registryURL username password : String)
    (transport : RoundTripper) (options : List OptionFunc) :
    newFromTransport env s registryURL username password transport options =
      ((Registry.Ping env s (options.foldl (fun r optionFunc => optionFunc r)
          { url := TrimSuffix registryURL "/",
            client := { Transport :=
              WrapTransport transport (TrimSuffix registryURL "/") username password },
            logf := LogfCallback.Log })).1,
        (Registry.Ping env s (options.foldl (fun r optionFunc => optionFunc r)
          { url := TrimSuffix registryURL "/",
            client := { Transport :=
              WrapTransport transport (TrimSuffix registryURL "/") username password },
            logf := LogfCallback.Log })).2.1,
        match (Registry.Ping env s (options.foldl (fun r optionFunc => optionFunc r)
          { url := TrimSuffix registryURL "/",
            client := { Transport :=
              WrapTransport transport (TrimSuffix registryURL "/") username password },
            logf := LogfCallback.Log })).2.2 with
        | some err => (none, some err)
        | none => (some (options.foldl (fun r optionFunc => optionFunc r)
          { url := TrimSuffix registryURL "/",
            client := { Transport :=
              WrapTransport transport (TrimSuffix registryURL "/") username password },
            logf := LogfCallback.Log }), none)) := by
  unfold newFromTransport
  simp only []
  split
  · rename_i h; simp [h]
  · rename_i h; simp [h]

theorem TrimSuffix_slash (t : String) : TrimSuffix (t ++ "/") "/" = t := by
  have h : HasSuffix (t ++ "/") "/" = true := by
    simp [HasSuffix]
  simp [TrimSuffix, h]

theorem TrimSuffix_no_slash (s : String) (h : ∀ t : String, s ≠ t ++ "/") :
    TrimSuffix s "/" = s := by
  unfold TrimSuffix
  split
  · rename_i hs
    exfalso
    apply h (String.mk (s.data.take (s.data.length - 1)))
    simp only [HasSuffix, Bool.and_eq_true, decide_eq_true_eq, beq_iff_eq] at hs
    apply String.ext
    have h2 : ("/" : String).data = ['/'] := rfl
    have h3 : ("/" : String).data.length = 1 := rfl
    rw [h3] at hs
    rw [String.data_append, h2, ← hs.2]
    simp
  · rfl

theorem requestedURLs_closeIf (resp : Option Response) :
    requestedURLs (closeIf resp) = [] := by
  cases resp <;> simp [closeIf, requestedURLs]

theorem foldl_url (options : List OptionFunc)
    (hopts : ∀ o ∈ options, ∀ x : Registry, (o x).url = x.url) :
    ∀ r : Registry, (options.foldl (fun r optionFunc => optionFunc r) r).url = r.url := by
  induction options with
  | nil => intro r; rfl
  | cons o os ih =>
    intro r
    rw [List.foldl_cons, ih (fun o1 h1 => hopts o1 (List.mem_cons_of_mem _ h1))]
    exact hopts o (List.mem_cons_self _ _) r


theorem requestedURLs_append (a b : List Event) :
    requestedURLs (a ++ b) = requestedURLs a ++ requestedURLs b := by
  induction a with
  | nil => rfl
  | cons e a ih => cases e <;> simp [requestedURLs, ih]

theorem Ping_requested (env : Env σ) (s : σ) (r : Registry) :
    requestedURLs (r.Ping env s).2.1 = [r.url ++ "/v2/"] := by
  rw [Ping_eq]
  simp [requestedURLs, requestedURLs_closeIf, requestedURLs_append]

theorem newFromTransport_trace (env : Env σ) (s : σ) (registryURL username password : String)
    (transport : RoundTripper) (options : List OptionFunc) :
    (newFromTransport env s registryURL username password transport options).2.1 =
      (Registry.Ping env s (options.foldl (fun r optionFunc => optionFunc r)
        { url := TrimSuffix registryURL "/",
          client := { Transport :=
            WrapTransport transport (TrimSuffix registryURL "/") username password },
          logf := LogfCallback.Log })).2.1 := by
  unfold newFromTransport
  simp only []
  split <;> (rename_i h; simp [h])

theorem newFromTransport_registry (env : Env σ) (s : σ)
    (registryURL username password : String) (transport : RoundTripper)
    (options : List OptionFunc) (reg : Registry)
    (h : (newFromTransport env s registryURL username password transport options).2.2.1 =
      some reg) :
    reg = options.foldl (fun r optionFunc => optionFunc r)
      { url := TrimSuffix registryURL "/",
        client := { Transport :=
          WrapTransport transport (TrimSuffix registryURL "/") username password },
        logf := LogfCallback.Log } := by
  unfold newFromTransport at h
  simp only [] at h
  split at h
  · simp at h
  · simpa using h.symm

theorem TagsLoop_first (env : Env σ) (r : Registry) (repository : String) (fuel : Nat)
    (s : σ) (url : String) (response : tagsResponse) (tags : Slice) :
    (requestedURLs
      (Registry.TagsLoop env r repository (fuel + 1) s url response tags).2.1).head? =
      some url := by
  rw [Registry.TagsLoop]
  simp only []
  split <;> simp [requestedURLs]

theorem clientsUsed_closeIf (resp : Option Response) : clientsUsed (closeIf resp) = [] := by
  cases resp <;> simp [closeIf, clientsUsed]

theorem callbacksUsed_closeIf (resp : Option Response) : callbacksUsed (closeIf resp) = [] := by
  cases resp <;> simp [closeIf, callbacksUsed]

theorem clientsUsed_append (a b : List Event) :
    clientsUsed (a ++ b) = clientsUsed a ++ clientsUsed b := by
  induction a with
  | nil => rfl
  | cons e a ih => cases e <;> simp [clientsUsed, ih]

theorem callbacksUsed_append (a b : List Event) :
    callbacksUsed (a ++ b) = callbacksUsed a ++ callbacksUsed b := by
  induction a with
  | nil => rfl
  | cons e a ih => cases e <;> simp [callbacksUsed, ih]

theorem Ping_clients (env : Env σ) (s : σ) (r : Registry) :
    clientsUsed (r.Ping env s).2.1 = [r.client] := by
  rw [Ping_eq]
  simp [clientsUsed, clientsUsed_closeIf, clientsUsed_append]

theorem Ping_callbacks (env : Env σ) (s : σ) (r : Registry) :
    callbacksUsed (r.Ping env s).2.1 = [r.logf] := by
  rw [Ping_eq]
  simp [callbacksUsed, callbacksUsed_closeIf, callbacksUsed_append]

theorem foldl_client (options : List OptionFunc)
    (hopts : ∀ o ∈ options, ∀ x : Registry, (o x).client = x.client) :
    ∀ r : Registry, (options.foldl (fun r optionFunc => optionFunc r) r).client = r.client := by
  induction options with
  | nil => intro r; rfl
  | cons o os ih =>
    intro r
    rw [List.foldl_cons, ih (fun o1 h1 => hopts o1 (List.mem_cons_of_mem _ h1))]
    exact hopts o (List.mem_cons_self _ _) r

theorem foldl_logf (options : List OptionFunc)
    (hopts : ∀ o ∈ options, ∀ x : Registry, (o x).logf = x.logf) :
    ∀ r : Registry, (options.foldl (fun r optionFunc => optionFunc r) r).logf = r.logf := by
  induction options with
  | nil => intro r; rfl
  | cons o os ih =>
    intro r
    rw [List.foldl_cons, ih (fun o1 h1 => hopts o1 (List.mem_cons_of_mem _ h1))]
    exact hopts o (List.mem_cons_self _ _) r

theorem TagsLoop_clients (env : Env σ) (r : Registry) (repository : String) :
    ∀ (fuel : Nat) (s : σ) (url : String) (response : tagsResponse) (tags : Slice),
      ∀ c ∈ clientsUsed (Registry.TagsLoop env r repository fuel s url response tags).2.1,
        c = r.client := by
  intro fuel
  induction fuel with
  | zero => intro s url response tags c hc; simp [Registry.TagsLoop, clientsUsed] at hc
  | succ n ih =>
    intro s url response tags c
    rw [Registry.TagsLoop]
    simp only []
    split
    · simp [clientsUsed]
    · simp only [clientsUsed, List.mem_cons]
      rintro (h | h)
      · exact h
      · exact ih _ _ _ _ c h
    · simp [clientsUsed]

theorem logged_closeIf (cb : LogfCallback) (b : Bool) (resp : Option Response) :
    loggedBeforeEachCall cb b (closeIf resp) = true := by
  cases resp <;> simp [closeIf, loggedBeforeEachCall]

theorem Ping_logged (env : Env σ) (s : σ) (r : Registry) :
    loggedBeforeEachCall r.logf false (r.Ping env s).2.1 = true := by
  simp [Registry.Ping, loggedBeforeEachCall, logged_closeIf]

theorem Manifest_logged (env : Env σ) (s : σ) (r : Registry) (repository reference : String) :
    loggedBeforeEachCall r.logf false (r.Manifest env s repository reference).2.1 = true := by
  unfold Registry.Manifest
  simp only []
  repeat' split
  all_goals simp [loggedBeforeEachCall]

theorem ManifestV2_logged (env : Env σ) (s : σ) (r : Registry) (repository reference : String) :
    loggedBeforeEachCall r.logf false (r.ManifestV2 env s repository reference).2.1 = true := by
  unfold Registry.ManifestV2
  simp only []
  repeat' split
  all_goals simp [loggedBeforeEachCall]

theorem ManifestDigest_logged (env : Env σ) (s : σ) (r : Registry)
    (repository reference : String) :
    loggedBeforeEachCall r.logf false (r.ManifestDigest env s repository reference).2.1 =
      true := by
  unfold Registry.ManifestDigest
  simp only []
  repeat' split
  all_goals simp [loggedBeforeEachCall, logged_closeIf]

theorem DeleteManifest_logged (env : Env σ) (s : σ) (r : Registry)
    (repository digest : String) :
    loggedBeforeEachCall r.logf false (r.DeleteManifest env s repository digest).2.1 =
      true := by
  unfold Registry.DeleteManifest
  simp only []
  repeat' split
  all_goals simp [loggedBeforeEachCall, logged_closeIf]

theorem PutManifest_logged (env : Env σ) (s : σ) (r : Registry)
    (repository reference : String) (manifest : Manifest) :
    loggedBeforeEachCall r.logf false (r.PutManifest env s repository reference manifest).2.1 =
      true := by
  unfold Registry.PutManifest
  simp only []
  repeat' split
  all_goals simp [loggedBeforeEachCall, logged_closeIf]

theorem TagsLoop_logged (env : Env σ) (r : Registry) (repository : String) :
    ∀ (fuel : Nat) (s : σ) (url : String) (response : tagsResponse) (tags : Slice),
      loggedBeforeEachCall r.logf false
        (Registry.TagsLoop env r repository fuel s url response tags).2.1 = true := by
  intro fuel
  induction fuel with
  | zero => intro s url response tags; rfl
  | succ n ih =>
    intro s url response tags
    rw [Registry.TagsLoop]
    simp only []
    split
    · simp [loggedBeforeEachCall]
    · simp [loggedBeforeEachCall, ih]
    · simp [loggedBeforeEachCall]

theorem TagsLoop_trace (env : Env σ) (r : Registry) (repository : String) :
    ∀ (fuel : Nat) (s : σ) (url : String) (response : tagsResponse) (tags : Slice),
      (Registry.TagsLoop env r repository fuel s url response tags).2.1 =
        (fetchedURLs (Registry.TagsLoop env r repository fuel s url response tags).2.1).flatMap
          (fun u => [Event.logf r.logf "registry.tags url=%s repository=%s" [u, repository],
            Event.getPaginatedJSON r u]) := by
  intro fuel
  induction fuel with
  | zero => intro s url response tags; rfl
  | succ n ih =>
    intro s url response tags
    rw [Registry.TagsLoop]
    simp only []
    split
    · simp [fetchedURLs]
    · simp only [fetchedURLs, List.flatMap_cons, List.cons_append, List.nil_append]
      rw [← ih]
    · simp [fetchedURLs]


/-- The scan is not vacuous: a network call with no log call before it, or a
second network call after a single log call, is rejected. -/
theorem loggedBeforeEachCall_rejects (cb : LogfCallback) (c : Client) (url : String) :
    loggedBeforeEachCall cb false [Event.Get c url] = false ∧
      loggedBeforeEachCall cb false
        [Event.logf cb "" [], Event.Get c url, Event.Head c url] = false := by
  simp [loggedBeforeEachCall]

/-! ## Claims about the transport stack, construction and the endpoint wrappers -/

/-- C2 (transport chain composition).  For every underlying transport `t`, URL
`u`, user name `n` and password `p`, `WrapTransport t u n p` is an
`ErrorTransport` whose inner transport is a `BasicTransport` with URL `u`,
user name `n` and password `p`, whose inner transport is a `TokenTransport`
with user name `n` and password `p`, whose inner transport is `t` itself: the
layers are error mapper (outermost), basic auth, token auth, network, and both
authenticating layers carry the same credential. -/
theorem WrapTransport_layers (t : RoundTripper) (u n p : String) :
    WrapTransport t u n p =
      RoundTripper.ErrorTransport
        (RoundTripper.BasicTransport (RoundTripper.TokenTransport t n p) u n p) := rfl

/-- C5 (construction pings before returning).  Let `r` be the registry that
`newFromTransport` has built once every option has been applied.  The events
and the resulting world of `newFromTransport` are exactly those of one
`Ping` of `r`; its only network call is a GET of the base URL of `r` followed by
`/v2/`; it returns `(nil, err)` exactly when that `Ping` returns the non-nil
error `err`, and returns `r` with a nil error when the `Ping` returns nil.
`New` and `NewInsecure` are `newFromTransport` on the default transport and
on a transport that skips certificate verification. -/
theorem newFromTransport_pings_once (env : Env σ) (s : σ)
    (registryURL username password : String) (transport : RoundTripper)
    (options : List OptionFunc) (r : Registry)
    (hr : r = options.foldl (fun r optionFunc => optionFunc r)
      { url := TrimSuffix registryURL "/",
        client := { Transport :=
          WrapTransport transport (TrimSuffix registryURL "/") username password },
        logf := LogfCallback.Log }) :
    (newFromTransport env s registryURL username password transport options).2.1 =
        (r.Ping env s).2.1 ∧
      (newFromTransport env s registryURL username password transport options).1 =
        (r.Ping env s).1 ∧
      (newFromTransport env s registryURL username password transport options).2.1.filter
          isNetworkCall = [Event.Get r.client (r.url ++ "/v2/")] ∧
      (∀ err : Error,
        (newFromTransport env s registryURL username password transport options).2.2 =
            (none, some err) ↔ (r.Ping env s).2.2 = some err) ∧
      ((r.Ping env s).2.2 = none →
        (newFromTransport env s registryURL username password transport options).2.2 =
          (some r, none)) ∧
      New env s registryURL username password options =
        newFromTransport env s registryURL username password
          RoundTripper.DefaultTransport options ∧
      NewInsecure env s registryURL username password options =
        newFromTransport env s registryURL username password
          (RoundTripper.Transport true) options := by
  subst hr
  rw [newFromTransport_eq]
  refine ⟨rfl, rfl, ?_, ?_, ?_, rfl, rfl⟩
  · simp [Ping_eq, isNetworkCall, filter_closeIf]
  · intro err
    cases h : (Registry.Ping env s _).2.2 <;> simp
  · intro h
    simp [h]


/-- Witness for C5: construction against the concrete world with one option. -/
theorem newFromTransport_pings_once_witness :
    (newFromTransport demoEnv 0 "https://r.example/" "user" "secret"
        RoundTripper.DefaultTransport [SetLogf LogfCallback.Quiet]).2.1.filter
        isNetworkCall =
      [Event.Get demoWrappedClient "https://r.example/v2/"] ∧
    (newFromTransport demoEnv 0 "https://r.example/" "user" "secret"
        RoundTripper.DefaultTransport [SetLogf LogfCallback.Quiet]).2.2 =
      (some (Registry.mk "https://r.example" demoWrappedClient LogfCallback.Quiet), none) ∧
    (newFromTransport demoEnv 0 "https://down.example" "user" "secret"
        RoundTripper.DefaultTransport []).2.2 = (none, some demoRefused) :=
  ⟨(newFromTransport_pings_once demoEnv 0 "https://r.example/" "user" "secret"
      RoundTripper.DefaultTransport [SetLogf LogfCallback.Quiet] _ rfl).2.2.1,
   (newFromTransport_pings_once demoEnv 0 "https://r.example/" "user" "secret"
      RoundTripper.DefaultTransport [SetLogf LogfCallback.Quiet] _ rfl).2.2.2.2.1 rfl,
   ((newFromTransport_pings_once demoEnv 0 "https://down.example" "user" "secret"
      RoundTripper.DefaultTransport [] _ rfl).2.2.2.1 demoRefused).2 rfl⟩

/-- C6 (the logging hook runs before each network call).  In every execution
of `Ping`, `Manifest`, `ManifestV2`, `ManifestDigest`, `DeleteManifest`,
`PutManifest` and `Tags` (for any number of loop iterations), every network
call (a client `Get`, `Head` or `Do`, or a page fetch) has a call of the
registry's `logf` callback before it and after the previous network call.  The
events of `Tags` are, for each URL it fetches, in order: one `logf` call
carrying that URL and the repository, then the fetch of that URL, and nothing
else. -/
theorem logf_before_each_network_call (env : Env σ) (s : σ) (r : Registry)
    (repository reference : String) (manifest : Manifest) (fuel : Nat) :
    loggedBeforeEachCall r.logf false (r.Ping env s).2.1 = true ∧
      loggedBeforeEachCall r.logf false (r.Manifest env s repository reference).2.1 = true ∧
      loggedBeforeEachCall r.logf false (r.ManifestV2 env s repository reference).2.1 = true ∧
      loggedBeforeEachCall r.logf false
        (r.ManifestDigest env s repository reference).2.1 = true ∧
      loggedBeforeEachCall r.logf false
        (r.DeleteManifest env s repository reference).2.1 = true ∧
      loggedBeforeEachCall r.logf false
        (r.PutManifest env s repository reference manifest).2.1 = true ∧
      loggedBeforeEachCall r.logf false (r.Tags env fuel s repository).2.1 = true ∧
      (r.Tags env fuel s repository).2.1 =
        (fetchedURLs (r.Tags env fuel s repository).2.1).flatMap
          (fun u => [Event.logf r.logf "registry.tags url=%s repository=%s" [u, repository],
            Event.getPaginatedJSON r u]) :=
  ⟨Ping_logged env s r, Manifest_logged env s r repository reference,
    ManifestV2_logged env s r repository reference,
    ManifestDigest_logged env s r repository reference,
    DeleteManifest_logged env s r repository reference,
    PutManifest_logged env s r repository reference manifest,
    TagsLoop_logged env r repository fuel s _ _ _,
    TagsLoop_trace env r repository fuel s _ _ _⟩

/-- C7 (`ManifestDigest` reads the digest from the HEAD response).  Given the
contract of `(*http.Client).Head`, `ManifestDigest` makes exactly one network
call, a HEAD of base URL + `/v2/<repository>/manifests/<reference>`.  If the
client returns a nil error, the result is `digest.Parse` applied to the value
of the response's `Docker-Content-Digest` header: to the first value `v` the
response's header map stores under that key, and to the empty string when the
map has no entry (or an entry without values) under it.  If the client
returns a non-nil error `e`, the result is the empty digest together with
`e`, whatever response comes with it.  In no case is a nil response
dereferenced. -/
theorem ManifestDigest_reads_header (env : Env σ) (s : σ) (r : Registry)
    (repository reference url : String)
    (hurl : url = r.url ++ "/v2/" ++ repository ++ "/manifests/" ++ reference)
    (hclient : HeadContract env) :
    (r.ManifestDigest env s repository reference).2.1.filter isNetworkCall =
        [Event.Head r.client url] ∧
      ((env.Head s r.client url).2.2 = none →
        ∃ resp : Response, (env.Head s r.client url).2.1 = some resp ∧
          (r.ManifestDigest env s repository reference).2.2 =
            Outcome.returned (env.digestParse (resp.Header.Get "Docker-Content-Digest"))) ∧
      (∀ (resp : Response) (v : String) (vs : List String),
        (env.Head s r.client url).2 = (some resp, none) →
        List.lookup "Docker-Content-Digest" resp.Header = some (v :: vs) →
        (r.ManifestDigest env s repository reference).2.2 =
          Outcome.returned (env.digestParse v)) ∧
      (∀ resp : Response,
        (env.Head s r.client url).2 = (some resp, none) →
        (List.lookup "Docker-Content-Digest" resp.Header = none ∨
          List.lookup "Docker-Content-Digest" resp.Header = some []) →
        (r.ManifestDigest env s repository reference).2.2 =
          Outcome.returned (env.digestParse "")) ∧
      (∀ resp : Response, resp.Header.lookup "Docker-Content-Digest" = none →
        resp.Header.Get "Docker-Content-Digest" = "") ∧
      (∀ e : Error, (env.Head s r.client url).2.2 = some e →
        (r.ManifestDigest env s repository reference).2.2 = Outcome.returned ("", some e)) ∧
      (r.ManifestDigest env s repository reference).2.2 ≠ Outcome.nilDeref := by
  subst hurl
  have hc := hclient s r.client (r.url ++ "/v2/" ++ repository ++ "/manifests/" ++ reference)
  unfold Registry.ManifestDigest
  simp only [manifestUrl_eq]
  rcases hh : env.Head s r.client (r.url ++ "/v2/" ++ repository ++ "/manifests/" ++ reference)
    with ⟨s1, resp, err⟩
  rw [hh] at hc
  cases err with
  | some e =>
    refine ⟨?_, ?_, ?_, ?_, ?_, ?_, ?_⟩
    · simp [isNetworkCall, filter_closeIf]
    · intro h; simp at h
    · intro resp1 v vs h; simp at h
    · intro resp1 h; simp at h
    · intro resp1 h; simp [Header.Get, h]
    · intro e1 h; simp at h; simp [h]
    · simp
  | none =>
    cases resp with
    | none => exact absurd rfl (hc rfl)
    | some rsp =>
      refine ⟨?_, ?_, ?_, ?_, ?_, ?_, ?_⟩
      · simp [isNetworkCall]
      · intro _; exact ⟨rsp, rfl, rfl⟩
      · intro resp1 v vs h hl
        simp only [Prod.mk.injEq, Option.some.injEq, and_true] at h
        subst h
        simp [Header.Get, hl]
      · intro resp1 h hl
        simp only [Prod.mk.injEq, Option.some.injEq, and_true] at h
        subst h
        rcases hl with hl | hl <;> simp [Header.Get, hl]
      · intro resp1 h; simp [Header.Get, h]
      · intro e1 h; simp at h
      · simp

/-- Witness for C7: the concrete world honours the contract.  A manifest whose
response carries the digest header yields that very digest; a response without
the header yields what `digest.Parse` makes of the empty string; and a failed
redirect yields the empty digest and the error, although its response carries
a digest header. -/
theorem ManifestDigest_reads_header_witness :
    HeadContract demoEnv ∧
    (demoRegistry.ManifestDigest demoEnv 0 "app" "latest").2.2 =
      Outcome.returned ("sha256:0a1b", none) ∧
    (demoRegistry.ManifestDigest demoEnv 0 "app" "bare").2.2 =
      Outcome.returned ("", some (Error.other "invalid checksum digest format")) ∧
    (demoRegistry.ManifestDigest demoEnv 0 "app" "moved").2.2 =
      Outcome.returned ("", some demoRedirect) :=
  have hc : HeadContract demoEnv := by
    intro s c url
    simp only [demoEnv, demoHead]
    split_ifs <;> simp
  ⟨hc,
   ((ManifestDigest_reads_header demoEnv 0 demoRegistry "app" "latest"
      "https://r.example/v2/app/manifests/latest" rfl hc).2.2.1
      (demoResponse 200 [("Docker-Content-Digest", ["sha256:0a1b"])] [])
      "sha256:0a1b" [] rfl rfl).trans rfl,
   ((ManifestDigest_reads_header demoEnv 0 demoRegistry "app" "bare"
      "https://r.example/v2/app/manifests/bare" rfl hc).2.2.2.1
      (demoResponse 200 [] []) rfl (Or.inl rfl)).trans rfl,
   (ManifestDigest_reads_header demoEnv 0 demoRegistry "app" "moved"
      "https://r.example/v2/app/manifests/moved" rfl hc).2.2.2.2.2.1 demoRedirect rfl⟩

/-- C8 (endpoint wrappers pass client errors upward unchanged).  For a request
URL that parses: `Ping` returns exactly the error of its client `Get` (nil
when that is nil); whenever the client `Do` of `Manifest` or `ManifestV2`
returns a non-nil error `e`, the operation returns a nil manifest and exactly
`e`; `DeleteManifest` returns exactly the error of its client `Do` (nil when
that is nil); and, when the manifest's payload is available, so does
`PutManifest`. -/
theorem endpoint_errors_passed_unchanged (env : Env σ) (s : σ) (r : Registry)
    (repository reference url : String) (manifest : Manifest)
    (hurl : url = r.url ++ "/v2/" ++ repository ++ "/manifests/" ++ reference)
    (hparse : env.parseURL url = none) :
    (r.Ping env s).2.2 = (env.Get s r.client (r.url ++ "/v2/")).2.2 ∧
      (∀ e : Error,
        (env.Do s r.client (Request.mk "GET" url
            [("Accept", [schema1MediaTypeManifest])] none)).2.2 = some e →
        (r.Manifest env s repository reference).2.2 = Outcome.returned (none, some e)) ∧
      (∀ e : Error,
        (env.Do s r.client (Request.mk "GET" url
            [("Accept", [schema2MediaTypeManifest])] none)).2.2 = some e →
        (r.ManifestV2 env s repository reference).2.2 = Outcome.returned (none, some e)) ∧
      (r.DeleteManifest env s repository reference).2.2 =
        (env.Do s r.client (Request.mk "DELETE" url [] none)).2.2 ∧
      (∀ (mediaType : String) (payload : List Nat),
        manifest.Payload = (mediaType, payload, none) →
        (r.PutManifest env s repository reference manifest).2.2 =
          (env.Do s r.client (Request.mk "PUT" url
            [("Content-Type", [mediaType])] (some payload))).2.2) := by
  subst hurl
  refine ⟨?_, ?_, ?_, ?_, ?_⟩
  · simp [Registry.Ping, generateUrl_eq, Sprintf_ping]
  · intro e he
    unfold Registry.Manifest
    simp only [manifestUrl_eq, NewRequest, hparse, Header.Set, List.filter_nil]
    split
    · rename_i h; rw [h] at he; simp at he; simp [he]
    · rename_i h; rw [h] at he; simp at he
    · rename_i h; rw [h] at he; simp at he
  · intro e he
    unfold Registry.ManifestV2
    simp only [manifestUrl_eq, NewRequest, hparse, Header.Set, List.filter_nil]
    split
    · rename_i h; rw [h] at he; simp at he; simp [he]
    · rename_i h; rw [h] at he; simp at he
    · rename_i h; rw [h] at he; simp at he
  · unfold Registry.DeleteManifest
    simp only [manifestUrl_eq, NewRequest, hparse]
    split
    · rename_i h; rw [h]
    · rename_i h; rw [h]
  · intro mediaType payload hp
    unfold Registry.PutManifest
    simp only [manifestUrl_eq, NewRequest, hparse, hp, Header.Set, List.filter_nil]


/-- Witness for C8: the refused and the failed-redirect requests of the
concrete world. -/
theorem endpoint_errors_passed_unchanged_witness :
    (demoRegistry.Manifest demoEnv 0 "app" "moved").2.2 =
      Outcome.returned (none, some demoRedirect) ∧
    (demoRegistry.ManifestV2 demoEnv 0 "app" "gone").2.2 =
      Outcome.returned (none, some demoRefused) ∧
    (demoRegistry.PutManifest demoEnv 0 "app" "latest"
        demoManifest).2.2 = none :=
  ⟨(endpoint_errors_passed_unchanged demoEnv 0 demoRegistry "app" "moved"
      "https://r.example/v2/app/manifests/moved"
      demoManifest rfl rfl).2.1 demoRedirect rfl,
   (endpoint_errors_passed_unchanged demoEnv 0 demoRegistry "app" "gone"
      "https://r.example/v2/app/manifests/gone"
      demoManifest rfl rfl).2.2.1 demoRefused rfl,
   ((endpoint_errors_passed_unchanged demoEnv 0 demoRegistry "app" "latest"
      "https://r.example/v2/app/manifests/latest"
      demoManifest rfl rfl).2.2.2.2
      "application/json" [123, 125] rfl).trans rfl⟩

/-- C9 (endpoint URL shape).  `TrimSuffix` removes one trailing `/` and leaves
a URL without trailing `/` alone.  For options that leave the `url` field
alone (as `SetLogf` and `SetHttpClient` do), the registry `newFromTransport`
returns stores the registry URL so trimmed, and its ping requests that base
URL followed by `/v2/`: for a registry URL `t/` the request goes to `t/v2/`.
`generateUrl` returns the base URL immediately followed by the formatted
path.  The URLs requested by `Ping`, by the manifest operations and by the
first page fetch of `Tags` are the base URL followed by `/v2/`,
`/v2/<repository>/manifests/<reference>` and `/v2/<repository>/tags/list`. -/
theorem endpoint_url_shape (env : Env σ) (s : σ)
    (registryURL username password : String) (transport : RoundTripper)
    (options : List OptionFunc) (r : Registry) (repository reference : String)
    (manifest : Manifest)
    (hopts : ∀ o ∈ options, ∀ x : Registry, (o x).url = x.url) :
    (∀ t : String, TrimSuffix (t ++ "/") "/" = t) ∧
      ((∀ t : String, registryURL ≠ t ++ "/") → TrimSuffix registryURL "/" = registryURL) ∧
      (∀ reg : Registry,
        (newFromTransport env s registryURL username password transport options).2.2.1 =
          some reg → reg.url = TrimSuffix registryURL "/") ∧
      requestedURLs
          (newFromTransport env s registryURL username password transport options).2.1 =
        [TrimSuffix registryURL "/" ++ "/v2/"] ∧
      (∀ t : String, registryURL = t ++ "/" →
        requestedURLs
            (newFromTransport env s registryURL username password transport options).2.1 =
          [t ++ "/v2/"]) ∧
      (∀ (pathTemplate : String) (args : List String),
        r.generateUrl pathTemplate args = r.url ++ Sprintf pathTemplate args) ∧
      requestedURLs (r.Ping env s).2.1 = [r.url ++ "/v2/"] ∧
      (∀ u ∈ requestedURLs (r.Manifest env s repository reference).2.1,
        u = r.url ++ "/v2/" ++ repository ++ "/manifests/" ++ reference) ∧
      (∀ u ∈ requestedURLs (r.ManifestV2 env s repository reference).2.1,
        u = r.url ++ "/v2/" ++ repository ++ "/manifests/" ++ reference) ∧
      requestedURLs (r.ManifestDigest env s repository reference).2.1 =
        [r.url ++ "/v2/" ++ repository ++ "/manifests/" ++ reference] ∧
      (∀ u ∈ requestedURLs (r.DeleteManifest env s repository reference).2.1,
        u = r.url ++ "/v2/" ++ repository ++ "/manifests/" ++ reference) ∧
      (∀ u ∈ requestedURLs (r.PutManifest env s repository reference manifest).2.1,
        u = r.url ++ "/v2/" ++ repository ++ "/manifests/" ++ reference) ∧
      (∀ fuel : Nat, (requestedURLs (r.Tags env (fuel + 1) s repository).2.1).head? =
        some (r.url ++ "/v2/" ++ repository ++ "/tags/list")) := by
  have hping : requestedURLs
      (newFromTransport env s registryURL username password transport options).2.1 =
      [TrimSuffix registryURL "/" ++ "/v2/"] := by
    rw [newFromTransport_trace, Ping_requested, foldl_url options hopts]
  refine ⟨TrimSuffix_slash, TrimSuffix_no_slash registryURL, ?_, hping, ?_,
    generateUrl_eq r, Ping_requested env s r, ?_, ?_, ?_, ?_, ?_, ?_⟩
  · intro reg h
    rw [newFromTransport_registry env s registryURL username password transport options reg h,
      foldl_url options hopts]
  · intro t ht
    rw [hping, ht, TrimSuffix_slash]
  · intro u
    unfold Registry.Manifest NewRequest
    simp only [manifestUrl_eq]
    cases env.parseURL (r.url ++ "/v2/" ++ repository ++ "/manifests/" ++ reference)
    all_goals simp only []
    all_goals repeat' split
    all_goals simp_all [requestedURLs]
  · intro u
    unfold Registry.ManifestV2 NewRequest
    simp only [manifestUrl_eq]
    cases env.parseURL (r.url ++ "/v2/" ++ repository ++ "/manifests/" ++ reference)
    all_goals simp only []
    all_goals repeat' split
    all_goals simp_all [requestedURLs]
  · unfold Registry.ManifestDigest
    simp only [manifestUrl_eq]
    repeat' split
    all_goals simp [requestedURLs, requestedURLs_closeIf, requestedURLs_append]
  · intro u
    unfold Registry.DeleteManifest NewRequest
    simp only [manifestUrl_eq]
    cases env.parseURL (r.url ++ "/v2/" ++ repository ++ "/manifests/" ++ reference)
    all_goals simp only []
    all_goals repeat' split
    all_goals simp_all [requestedURLs, requestedURLs_closeIf, requestedURLs_append]
  · intro u
    unfold Registry.PutManifest NewRequest
    simp only [manifestUrl_eq]
    cases env.parseURL (r.url ++ "/v2/" ++ repository ++ "/manifests/" ++ reference)
    all_goals simp only []
    all_goals repeat' split
    all_goals simp_all [requestedURLs, requestedURLs_closeIf, requestedURLs_append]
  · intro fuel
    simp only [Registry.Tags, generateUrl_eq, Sprintf_tags, ← String.append_assoc]
    exact TagsLoop_first env r repository fuel s _ _ _


/-- Witness for C9: a registry URL with one trailing slash. -/
theorem endpoint_url_shape_witness :
    requestedURLs (newFromTransport demoEnv 0 "https://r.example/" "user" "secret"
        RoundTripper.DefaultTransport
        [SetLogf LogfCallback.Quiet, SetHttpClient demoClient]).2.1 =
      ["https://r.example" ++ "/v2/"] :=
  (endpoint_url_shape demoEnv 0 "https://r.example/" "user" "secret"
    RoundTripper.DefaultTransport [SetLogf LogfCallback.Quiet, SetHttpClient demoClient]
    demoRegistry "app" "latest" demoManifest
    (by
      intro o ho x
      simp only [List.mem_cons, List.mem_singleton, List.not_mem_nil, or_false] at ho
      rcases ho with rfl | rfl <;> rfl)).2.2.2.2.1 "https://r.example" rfl

/-- C10 (options).  `SetLogf f` sets `logf` to `f` and `SetHttpClient c` sets
`client` to `c`, each leaving the other two fields as they were.
`newFromTransport` starts from `logf = Log` and a client whose transport is
`WrapTransport` of the given transport, the trimmed URL and the credentials:
these are what its ping uses when the options leave the field alone.  Options
are applied left to right, so the last option for a field wins: after
`SetLogf f` (resp. `SetHttpClient c`) followed only by options that leave that
field alone, whatever came before, the ping logs through `f` (resp. goes
through `c`) and the returned registry holds `f` (resp. `c`).  Every network
call of every operation goes through the registry's client. -/
theorem options_frame_and_order (env : Env σ) (s : σ)
    (registryURL username password : String) (transport : RoundTripper)
    (pre post : List OptionFunc) (f : LogfCallback) (c : Client) (r : Registry)
    (repository reference : String) (manifest : Manifest) :
    SetLogf f r = { url := r.url, client := r.client, logf := f } ∧
      SetHttpClient c r = { url := r.url, client := c, logf := r.logf } ∧
      ((∀ o ∈ post, ∀ x : Registry, (o x).logf = x.logf) →
        callbacksUsed
            (newFromTransport env s registryURL username password transport post).2.1 =
          [LogfCallback.Log]) ∧
      ((∀ o ∈ post, ∀ x : Registry, (o x).client = x.client) →
        clientsUsed
            (newFromTransport env s registryURL username password transport post).2.1 =
          [{ Transport :=
              WrapTransport transport (TrimSuffix registryURL "/") username password }]) ∧
      ((∀ o ∈ post, ∀ x : Registry, (o x).logf = x.logf) →
        callbacksUsed (newFromTransport env s registryURL username password transport
            (pre ++ SetLogf f :: post)).2.1 = [f] ∧
          ∀ reg : Registry, (newFromTransport env s registryURL username password transport
            (pre ++ SetLogf f :: post)).2.2.1 = some reg → reg.logf = f) ∧
      ((∀ o ∈ post, ∀ x : Registry, (o x).client = x.client) →
        clientsUsed (newFromTransport env s registryURL username password transport
            (pre ++ SetHttpClient c :: post)).2.1 = [c] ∧
          ∀ reg : Registry, (newFromTransport env s registryURL username password transport
            (pre ++ SetHttpClient c :: post)).2.2.1 = some reg → reg.client = c) ∧
      clientsUsed (r.Ping env s).2.1 = [r.client] ∧
      (∀ c1 ∈ clientsUsed (r.Manifest env s repository reference).2.1, c1 = r.client) ∧
      (∀ c1 ∈ clientsUsed (r.ManifestV2 env s repository reference).2.1, c1 = r.client) ∧
      clientsUsed (r.ManifestDigest env s repository reference).2.1 = [r.client] ∧
      (∀ c1 ∈ clientsUsed (r.DeleteManifest env s repository reference).2.1,
        c1 = r.client) ∧
      (∀ c1 ∈ clientsUsed (r.PutManifest env s repository reference manifest).2.1,
        c1 = r.client) ∧
      (∀ fuel : Nat, ∀ c1 ∈ clientsUsed (r.Tags env fuel s repository).2.1,
        c1 = r.client) := by
  refine ⟨rfl, rfl, ?_, ?_, ?_, ?_, Ping_clients env s r, ?_, ?_, ?_, ?_, ?_, ?_⟩
  · intro h
    rw [newFromTransport_trace, Ping_callbacks, foldl_logf post h]
  · intro h
    rw [newFromTransport_trace, Ping_clients, foldl_client post h]
  · intro h
    refine ⟨?_, ?_⟩
    · rw [newFromTransport_trace, Ping_callbacks, List.foldl_append, List.foldl_cons,
        foldl_logf post h]
      rfl
    · intro reg hreg
      rw [newFromTransport_registry env s registryURL username password transport _ reg hreg,
        List.foldl_append, List.foldl_cons, foldl_logf post h]
      rfl
  · intro h
    refine ⟨?_, ?_⟩
    · rw [newFromTransport_trace, Ping_clients, List.foldl_append, List.foldl_cons,
        foldl_client post h]
      rfl
    · intro reg hreg
      rw [newFromTransport_registry env s registryURL username password transport _ reg hreg,
        List.foldl_append, List.foldl_cons, foldl_client post h]
      rfl
  · intro c1
    unfold Registry.Manifest NewRequest
    simp only [manifestUrl_eq]
    cases env.parseURL (r.url ++ "/v2/" ++ repository ++ "/manifests/" ++ reference)
    all_goals simp only []
    all_goals repeat' split
    all_goals simp_all [clientsUsed]
  · intro c1
    unfold Registry.ManifestV2 NewRequest
    simp only [manifestUrl_eq]
    cases env.parseURL (r.url ++ "/v2/" ++ repository ++ "/manifests/" ++ reference)
    all_goals simp only []
    all_goals repeat' split
    all_goals simp_all [clientsUsed]
  · unfold Registry.ManifestDigest
    simp only [manifestUrl_eq]
    repeat' split
    all_goals simp [clientsUsed, clientsUsed_closeIf, clientsUsed_append]
  · intro c1
    unfold Registry.DeleteManifest NewRequest
    simp only [manifestUrl_eq]
    cases env.parseURL (r.url ++ "/v2/" ++ repository ++ "/manifests/" ++ reference)
    all_goals simp only []
    all_goals repeat' split
    all_goals simp_all [clientsUsed, clientsUsed_closeIf, clientsUsed_append]
  · intro c1
    unfold Registry.PutManifest NewRequest
    simp only [manifestUrl_eq]
    cases env.parseURL (r.url ++ "/v2/" ++ repository ++ "/manifests/" ++ reference)
    all_goals simp only []
    all_goals repeat' split
    all_goals simp_all [clientsUsed, clientsUsed_closeIf, clientsUsed_append]
  · intro fuel c1 h
    exact TagsLoop_clients env r repository fuel s _ _ _ c1 h


/-- Witness for C10: a client option after an earlier client option and before
a logging option. -/
theorem options_frame_and_order_witness :
    clientsUsed (newFromTransport demoEnv 0 "https://r.example/" "user" "secret"
        RoundTripper.DefaultTransport
        ([SetHttpClient { Transport := RoundTripper.custom 1 }] ++
          SetHttpClient demoClient :: [SetLogf LogfCallback.Quiet])).2.1 = [demoClient] ∧
    callbacksUsed (newFromTransport demoEnv 0 "https://r.example/" "user" "secret"
        RoundTripper.DefaultTransport [SetHttpClient demoClient]).2.1 =
      [LogfCallback.Log] :=
  ⟨((options_frame_and_order demoEnv 0 "https://r.example/" "user" "secret"
      RoundTripper.DefaultTransport [SetHttpClient { Transport := RoundTripper.custom 1 }]
      [SetLogf LogfCallback.Quiet] LogfCallback.Quiet demoClient demoRegistry "app" "latest"
      demoManifest).2.2.2.2.2.1
      (by
        intro o ho x
        simp only [List.mem_singleton] at ho
        subst ho
        rfl)).1,
   (options_frame_and_order demoEnv 0 "https://r.example/" "user" "secret"
      RoundTripper.DefaultTransport [] [SetHttpClient demoClient] LogfCallback.Quiet
      demoClient demoRegistry "app" "latest"
      demoManifest).2.2.1
      (by
        intro o ho x
        simp only [List.mem_singleton] at ho
        subst ho
        rfl)⟩


end Endpoints

end registry
